import Mathlib

set_option maxRecDepth 8000

/-!
Verification development for the `acqmidproc` image-acquisition middle
processor.  The Rust source (`src/main.rs`) is shallowly embedded below:

* `SisImg` / `SisImg.read` / `SisImg.write` — the fixed-layout binary codec.
  A file's bytes are modelled as `List Nat` (each element a byte value).
  `SisImg.write` returns `Option` because the source computes the pixel
  buffer length in `u32` arithmetic (`2 * self.height as u32 * self.width
  as u32`); when that wraps, `byteorder::write_u16_into` panics on the
  length mismatch, so no complete byte stream is produced.  A panic is
  modelled as `none`.
* Grids (`Grid`), broadcasting arithmetic (`gridZipB`), slicing
  (`rowsBefore`/`rowsFrom`) and region assignment (`assignRows`) model the
  `ndarray` operations used by `FKSpecies::calc_od`; `f32` sample values
  are modelled as rationals (all concrete values used in witnesses are
  small integers, on which `f32` arithmetic is exact), with the
  element-wise natural logarithm kept abstract as a function parameter.
* The filesystem is modelled as an association list from paths to byte
  lists; the two processors (`Identity`, `FKSpecies`) are state functions
  returning the updated filesystem together with an optional structured
  error (`ProcErr`).
-/

/-! ## Binary codec (`SisImg::read`, `SisImg::write`) -/

/-- One decoded frame, mirroring `struct SisImg { height, width, image }`
(`image` holds `u16` sample values, row-major). -/
structure SisImg where
  height : Nat
  width : Nat
  image : List Nat
  deriving DecidableEq, Repr

/-- Little-endian byte pair of a 16-bit value, as produced by
`u16::to_le_bytes` / `byteorder::LittleEndian::write_u16_into`. -/
def le16 (n : Nat) : List Nat :=
  [n % 256, n / 256 % 256]

/-- Byte production of `SisImg::write`: ten `0x20` bytes, height and width
as little-endian `u16` (the source truncates `usize` fields with `as u16`,
modelled by `% 65536`), 186 more `0x20` bytes, then the samples in
little-endian order.  The source sizes the sample buffer with
`2 * self.height as u32 * self.width as u32` (wrapping `u32`
multiplication, modelled by `% 4294967296`); if that differs from twice the
sample count, `write_u16_into` panics, modelled as `none`. -/
def SisImg.write (img : SisImg) : Option (List Nat) :=
  let nbytes := 2 * (img.height % 4294967296) % 4294967296
      * (img.width % 4294967296) % 4294967296
  if nbytes = 2 * img.image.length then
    some (List.replicate 10 32 ++ le16 (img.height % 65536)
      ++ le16 (img.width % 65536) ++ List.replicate 186 32
      ++ img.image.flatMap le16)
  else
    none

/-- Read a little-endian `u16` at byte offset `off`
(`read_exact` on a 2-byte buffer followed by `u16::from_le_bytes`);
fails when the stream ends before `off + 2`. -/
def readLE16 (bytes : List Nat) (off : Nat) : Option Nat :=
  if off + 2 ≤ bytes.length then
    some (bytes.getD off 0 + 256 * bytes.getD (off + 1) 0)
  else
    none

/-- The `height * width` little-endian `u16` samples starting at byte
offset `off`, as read by `read_u16_into::<LittleEndian>`. -/
def readSamples (bytes : List Nat) (off n : Nat) : List Nat :=
  (List.range n).map fun k =>
    bytes.getD (off + 2 * k) 0 + 256 * bytes.getD (off + 2 * k + 1) 0

/-- `SisImg::read`: skip 10 bytes, read height and width, skip 186 bytes,
then read `height * width` samples; any short read fails (`read_exact` /
`read_u16_into` return `UnexpectedEof`).  Reading zero samples succeeds
even when the stream ends before offset 200 (seeking past the end is
allowed and a zero-length read never fails). -/
def SisImg.read (bytes : List Nat) : Option SisImg :=
  match readLE16 bytes 10, readLE16 bytes 12 with
  | some height, some width =>
    if height * width = 0 then
      some ⟨height, width, []⟩
    else if 200 + 2 * (height * width) ≤ bytes.length then
      some ⟨height, width, readSamples bytes 200 (height * width)⟩
    else
      none
  | _, _ => none

/-! ## Paths and the filesystem model -/

/-- Paths are modelled as character lists (the content of a `PathBuf`). -/
abbrev FPath := List Char

/-- The filesystem: an association list from paths to file contents
(byte lists).  The head binding for a path is the current file content. -/
abbrev FS := List (FPath × List Nat)

/-- Write (create or overwrite) a file. -/
def fsSet (fs : FS) (p : FPath) (contents : List Nat) : FS :=
  (p, contents) :: fs.filter fun e => !(e.1 == p)

/-- Split a character list at `/` separators, keeping empty components
(so `"a/b"` gives `[a, b]`, `"/x"` gives `["", x]`). -/
def splitSlash (l : List Char) : List (List Char) :=
  match l with
  | [] => [[]]
  | c :: rest =>
    match splitSlash rest with
    | [] => [[c]]
    | h :: t => if c = '/' then [] :: h :: t else (c :: h) :: t

/-- Join path components with `/` separators (inverse of `splitSlash`). -/
def joinSlash (parts : List (List Char)) : List Char :=
  match parts with
  | [] => []
  | [p] => p
  | p :: rest => p ++ '/' :: joinSlash rest

/-- `Path::file_name`: the final path component, or `none` when there is
none to extract (empty final component, `.` or `..`).  Modelled for
ordinary file paths; the source only calls it on watcher-reported paths. -/
def fileName (p : FPath) : Option FPath :=
  match (splitSlash p).getLastD [] with
  | [] => none
  | ['.'] => none
  | ['.', '.'] => none
  | comp => some comp

/-- Replace the last component of `parts` by `f`. -/
def replaceLast (parts : List (List Char)) (f : List Char) : List (List Char) :=
  match parts with
  | [] => [f]
  | [_] => [f]
  | p :: rest => p :: replaceLast rest f

/-- `PathBuf::with_file_name`: REPLACES the final component of the path
(`Path::new("/tmp/foo").with_file_name("bar") == "/tmp/bar"`).  The source
applies this to the output directory, so the result is a sibling of that
directory, not a file inside it. -/
def withFileName (p f : FPath) : FPath :=
  joinSlash (replaceLast (splitSlash p) f)

/-- `PathBuf::push` of a relative file name: appends a separator and the
name (output-directory paths are modelled without a trailing slash). -/
def pushPath (dir f : FPath) : FPath :=
  dir ++ '/' :: f

/-- Does `pat` occur as a prefix of `l`?  (Bool-valued, structural.) -/
def leadMatch : List Char → List Char → Bool
  | [], _ => true
  | _ :: _, [] => false
  | a :: as, b :: bs => a == b && leadMatch as bs

/-- `str::contains(pattern)`: does `pat` occur contiguously inside `l`? -/
def containsSeq (pat : List Char) : List Char → Bool
  | [] => leadMatch pat []
  | c :: rest => leadMatch pat (c :: rest) || containsSeq pat rest

/-- Structured processing errors (`anyhow` errors carry formatted
messages; here each `bail!`/`ok_or` site is one constructor holding the
values interpolated into its message). -/
inductive ProcErr where
  /-- `bail!("Cannot find pattern {} in {:?}", pattern, paths)` -/
  | patternMissing (pattern : List Char)
  /-- `Cannot find file name in path` / `cannot extract filename` -/
  | noFileName (path : FPath)
  /-- failed `File::open` or a short read in `SisImg::read` -/
  | readFail (path : FPath)
  /-- failed `fs::copy` (missing source file) -/
  | copyFail (path : FPath)
  /-- panic inside `FKSpecies::calc_od` (ndarray shape mismatch) -/
  | odPanic
  /-- `SisImg::new` dimension check failed -/
  | imgTooBig
  /-- panic inside `SisImg::write` (`u32` length overflow) -/
  | writePanic
  deriving DecidableEq, Repr

/-- `FKSpecies::findpattern`: the first path whose text contains
`pattern`; fails when no path matches. -/
def findpattern (paths : List FPath) (pattern : List Char) : Except ProcErr FPath :=
  match paths.filter (fun x => containsSeq pattern x) with
  | [] => .error (.patternMissing pattern)
  | p :: _ => .ok p

/-- `Identity::filecp`: copy one file into the output directory under its
original file name (`outname.push(fname)`). -/
def Identity.filecp (outpath : FPath) (fs : FS) (p : FPath) : FS × Option ProcErr :=
  match fileName p with
  | none => (fs, some (.noFileName p))
  | some f =>
    match fs.lookup p with
    | none => (fs, some (.copyFail p))
    | some contents => (fsSet fs (pushPath outpath f) contents, none)

/-- `Identity::proc`: copy each path in order, failing fast on the first
error (earlier copies are kept). -/
def Identity.procRes (outpath : FPath) (fs : FS) : List FPath → FS × Option ProcErr
  | [] => (fs, none)
  | p :: rest =>
    match Identity.filecp outpath fs p with
    | (fs2, none) => Identity.procRes outpath fs2 rest
    | (fs2, some e) => (fs2, some e)

/-! ## Grid model of `ndarray::Array2` and `FKSpecies::calc_od` -/

/-- A two-dimensional array in row-major order
(`ndarray::Array2`; `data.length = height * width` in well-formed use). -/
structure Grid (α : Type) where
  height : Nat
  width : Nat
  data : List α
  deriving DecidableEq, Repr

/-- The element at row `i`, column `j`. -/
def Grid.entry [Inhabited α] (g : Grid α) (i j : Nat) : α :=
  g.data.getD (i * g.width + j) default

/-- Element-wise map over a grid (`mapv` / `mapv_inplace`). -/
def Grid.map (f : α → β) (g : Grid α) : Grid β :=
  ⟨g.height, g.width, g.data.map f⟩

/-- `ndarray` broadcasting test: can a `(bh, bw)` array be broadcast to
shape `(ah, aw)`?  Each axis must match or have length 1 on the source. -/
def bcastOK (bh bw ah aw : Nat) : Bool :=
  (bh == ah || bh == 1) && (bw == aw || bw == 1)

/-- Element-wise binary operation `&a OP &b` of `ndarray`: the result has
`a`'s shape and `b` is broadcast to it; a non-broadcastable shape panics
(modelled as `none`). -/
def gridZipB [Inhabited α] [Inhabited β] (f : α → β → γ)
    (a : Grid α) (b : Grid β) : Option (Grid γ) :=
  if bcastOK b.height b.width a.height a.width then
    some ⟨a.height, a.width, (List.range (a.height * a.width)).map fun k =>
      let i := k / a.width
      let j := k % a.width
      f (a.entry i j)
        (b.entry (if b.height = 1 then 0 else i) (if b.width = 1 then 0 else j))⟩
  else
    none

/-- The slice `s![..r, ..]`: rows `[0, r)` of a grid (with `r ≤ height`). -/
def rowsBefore (g : Grid α) (r : Nat) : Grid α :=
  ⟨r, g.width, g.data.take (r * g.width)⟩

/-- The slice `s![r.., ..]`: rows `[r, height)` of a grid. -/
def rowsFrom (g : Grid α) (r : Nat) : Grid α :=
  ⟨g.height - r, g.width, g.data.drop (r * g.width)⟩

/-- `out.slice_mut(s![r0..r1, ..]).assign(&src)`: overwrite rows
`[r0, r1)` of `out` with `src`, broadcasting `src` to the region's shape;
a non-broadcastable `src` panics (modelled as `none`). -/
def assignRows [Inhabited α] (out : Grid α) (r0 r1 : Nat) (src : Grid α) :
    Option (Grid α) :=
  if bcastOK src.height src.width (r1 - r0) out.width then
    some ⟨out.height, out.width, (List.range (out.height * out.width)).map fun k =>
      let i := k / out.width
      let j := k % out.width
      if r0 ≤ i ∧ i < r1 then
        src.entry (if src.height = 1 then 0 else i - r0)
          (if src.width = 1 then 0 else j)
      else out.entry i j⟩
  else
    none

/-- Wrapping `u16` subtraction, the element operation of `img1 - img3` on
`Array2<u16>` (two's-complement wraparound; a debug build would panic on
underflow instead, which also falsifies the spec's claim of a negative
floating-point difference). -/
def u16sub (a b : Nat) : Nat :=
  (a + 65536 - b) % 65536

/-- The background-subtracted frame `(imgN - img3).mapv(f32::from)`:
`u16` subtraction with broadcasting, then conversion to float (exact,
since every `u16` is exactly representable in `f32`; floats are modelled
as rationals). -/
def subFrame (a r : Grid Nat) : Option (Grid ℚ) :=
  (gridZipB u16sub a r).map (Grid.map fun n : Nat => (n : ℚ))

/-- Modelled from the spec: the spec's words for the same step, namely
`S1 = float(A) - float(R)` computed entirely in floating point (here:
exact rational subtraction), kept for comparison with `subFrame`. -/
def subFrameSpec (a r : Grid Nat) : Grid ℚ :=
  ⟨a.height, a.width, (List.range (a.height * a.width)).map fun k =>
    (a.entry (k / a.width) (k % a.width) : ℚ)
      - (r.entry (k / a.width) (k % a.width) : ℚ)⟩

/-- `FKSpecies::calc_od`, with the element-wise `f32::ln` kept abstract as
`lnf`.  Mirrors the source statement by statement: the two subtracted
frames, a zero output of `img1`'s shape, then for each half the log, the
broadcasting subtraction of the two row slices and the region assignment.
Any `ndarray` shape panic is `none`. -/
def calc_od (lnf : ℚ → ℚ) (img1 img2 img3 : Grid Nat) : Option (Grid ℚ) := do
  let s1 ← subFrame img1 img3
  let s2 ← subFrame img2 img3
  let out0 : Grid ℚ := ⟨img1.height, img1.width,
    List.replicate (img1.height * img1.width) 0⟩
  let h := s1.height
  let l1 := s1.map lnf
  let d1 ← gridZipB (fun a b => a - b) (rowsFrom l1 (h / 2)) (rowsBefore l1 (h / 2))
  let out1 ← assignRows out0 0 (h / 2) d1
  let l2 := s2.map lnf
  let d2 ← gridZipB (fun a b => a - b) (rowsFrom l2 (h / 2)) (rowsBefore l2 (h / 2))
  assignRows out1 (h / 2) out1.height d2

/-- Truncation of a rational toward zero (the exact integer part of an
`f32` value, which is what `as` keeps for in-range casts). -/
def ratTrunc (x : ℚ) : Int :=
  if x < 0 then -(Int.floor (-x)) else Int.floor x

/-- Rust's `f32 as u16` cast: saturating since Rust 1.45 — truncate
toward zero, clamp to `[0, 65535]` (`NaN`, which maps to 0, cannot arise
in the rational model). -/
def fCastU16 (x : ℚ) : Nat :=
  if x < 0 then 0 else min 65535 (ratTrunc x).toNat

/-- Modelled from the spec: the claimed "truncating (non-clamping)"
conversion — truncate toward zero, then wrap modulo 2^16 — kept for
comparison with the source's saturating cast `fCastU16`. -/
def truncWrapCastU16 (x : ℚ) : Nat :=
  (Int.emod (ratTrunc x) 65536).toNat

/-- One element of `(FKSpecies::calc_od(..) + 1.0) * 1000.0` followed by
`mapv(|x| x as u16)`. -/
def rescaleElem (v : ℚ) : Nat :=
  fCastU16 ((v + 1) * 1000)

/-! ## `FKSpecies::proc` -/

/-- The token `"rawimg-0001"`. -/
def tokRaw1 : List Char := "rawimg-0001".toList

/-- The token `"rawimg-0002"`. -/
def tokRaw2 : List Char := "rawimg-0002".toList

/-- The token `"rawimg-0003"`. -/
def tokRaw3 : List Char := "rawimg-0003".toList

/-- The fixed synthetic result name `"20140000-img-0000.sis"`. -/
def odFileName : List Char := "20140000-img-0000.sis".toList

/-- `SisImg::read` from a file in the modelled filesystem: `File::open`
fails when the path is absent; a short stream fails inside `read`. -/
def sisReadFs (fs : FS) (p : FPath) : Except ProcErr SisImg :=
  match fs.lookup p with
  | none => .error (.readFail p)
  | some bytes =>
    match SisImg.read bytes with
    | none => .error (.readFail p)
    | some img => .ok img

/-- `Array2::from_shape_vec` applied to a decoded image
(`impl From<SisImg> for Array2<u16>`). -/
def SisImg.toGrid (img : SisImg) : Grid Nat :=
  ⟨img.height, img.width, img.image⟩

/-- `SisImg::new`: wrap a computed grid, failing when either dimension
exceeds `u16::MAX` (`into_raw_vec` keeps the row-major data). -/
def SisImg.new (g : Grid Nat) : Except ProcErr SisImg :=
  if g.height ≤ 65535 then
    if g.width ≤ 65535 then .ok ⟨g.height, g.width, g.data⟩
    else .error .imgTooBig
  else .error .imgTooBig

/-- `fs::copy src dst` on the modelled filesystem. -/
def fsCopy (fs : FS) (src dst : FPath) : FS × Option ProcErr :=
  match fs.lookup src with
  | none => (fs, some (.copyFail src))
  | some contents => (fsSet fs dst contents, none)

/-- `FKSpecies::proc`, step for step: find the three patterned paths and
their file names, derive output paths with `with_file_name` on the output
directory, decode the three images, compute and rescale the optical
density, copy the three raw files, then encode the result to its fixed
synthetic path.  Returns the final filesystem and the error (if any);
every failure happens before any write except a failed copy or encode,
which keeps the writes already made (fail-fast, no rollback). -/
def FKSpecies.procRes (lnf : ℚ → ℚ) (outpath : FPath) (fs : FS)
    (paths : List FPath) : FS × Option ProcErr :=
  match findpattern paths tokRaw1 with
  | .error e => (fs, some e)
  | .ok img1p =>
  match fileName img1p with
  | none => (fs, some (.noFileName img1p))
  | some img1fn =>
  let img1op := withFileName outpath img1fn
  match findpattern paths tokRaw2 with
  | .error e => (fs, some e)
  | .ok img2p =>
  match fileName img2p with
  | none => (fs, some (.noFileName img2p))
  | some img2fn =>
  let img2op := withFileName outpath img2fn
  match findpattern paths tokRaw3 with
  | .error e => (fs, some e)
  | .ok img3p =>
  match fileName img3p with
  | none => (fs, some (.noFileName img3p))
  | some img3fn =>
  let img3op := withFileName outpath img3fn
  match sisReadFs fs img1p with
  | .error e => (fs, some e)
  | .ok img1 =>
  match sisReadFs fs img2p with
  | .error e => (fs, some e)
  | .ok img2 =>
  match sisReadFs fs img3p with
  | .error e => (fs, some e)
  | .ok img3 =>
  match calc_od lnf img1.toGrid img2.toGrid img3.toGrid with
  | none => (fs, some .odPanic)
  | some od =>
  let imgod : Grid Nat := od.map rescaleElem
  match fsCopy fs img1p img1op with
  | (fs1, some e) => (fs1, some e)
  | (fs1, none) =>
  match fsCopy fs1 img2p img2op with
  | (fs2, some e) => (fs2, some e)
  | (fs2, none) =>
  match fsCopy fs2 img3p img3op with
  | (fs3, some e) => (fs3, some e)
  | (fs3, none) =>
  let imgodop := withFileName outpath odFileName
  match SisImg.new imgod with
  | .error e => (fs3, some e)
  | .ok sis =>
  match sis.write with
  | none => (fs3, some .writePanic)
  | some bytes => (fsSet fs3 imgodop bytes, none)

/-! ## Event flattening (`handle_events`) and processor selection -/

/-- `Vec::dedup`: remove consecutive repeated elements, keeping the first
of each run. -/
def dedupAdj [DecidableEq α] : List α → List α
  | [] => []
  | [a] => [a]
  | a :: b :: rest =>
    if a = b then dedupAdj (b :: rest) else a :: dedupAdj (b :: rest)

/-- The path list built by `handle_events`: every path of every event in
delivery order, then `dedup`. -/
def handleEventsPaths (events : List (List FPath)) : List FPath :=
  dedupAdj (events.flatMap fun ev => ev)

/-- The two processor variants selectable by name. -/
inductive ProcKind where
  | identity
  | fkspecies
  deriving DecidableEq, Repr

/-- `getproc`: the processor for a configured name; an unknown name fails
with the configured name and the advertised list of possible values,
which the source hard-codes as `vec!["identity", "dummy"]`. -/
def getproc (name : String) : Except (String × List String) ProcKind :=
  if name = "identity" then .ok .identity
  else if name = "fkspecies" then .ok .fkspecies
  else .error (name, ["identity", "dummy"])

/-! ## Codec lemmas -/

theorem le16_length (n : Nat) : (le16 n).length = 2 := rfl

theorem flatMap_le16_length (l : List Nat) :
    (l.flatMap le16).length = 2 * l.length := by
  induction l with
  | nil => rfl
  | cons x xs ih =>
    simp only [List.flatMap_cons, List.length_append, ih, le16,
      List.length_cons, List.length_nil]
    omega

theorem flatMap_le16_getD (l : List Nat) :
    ∀ k, k < l.length →
      (l.flatMap le16).getD (2 * k) 0 = l.getD k 0 % 256 ∧
      (l.flatMap le16).getD (2 * k + 1) 0 = l.getD k 0 / 256 % 256 := by
  induction l with
  | nil =>
    intro k hk
    simp at hk
  | cons x xs ih =>
    intro k hk
    cases k with
    | zero => exact ⟨rfl, rfl⟩
    | succ k =>
      have hk' : k < xs.length := by
        simpa using Nat.lt_of_succ_lt_succ hk
      have h2 : 2 * (k + 1) = 2 + 2 * k := by omega
      have h3 : 2 * (k + 1) + 1 = 2 + (2 * k + 1) := by omega
      have hlen : (le16 x).length = 2 := rfl
      obtain ⟨e1, e2⟩ := ih k hk'
      constructor
      · rw [List.flatMap_cons, h2,
          List.getD_append_right _ _ _ _ (by omega), hlen]
        simpa using e1
      · rw [List.flatMap_cons, h3,
          List.getD_append_right _ _ _ _ (by omega), hlen]
        have h4 : 2 + (2 * k + 1) - 2 = 2 * k + 1 := by omega
        rw [h4, e2, List.getD_cons_succ]

theorem readSamples_append (pre : List Nat) (l : List Nat)
    (hpre : pre.length = 200) (hvals : ∀ x ∈ l, x < 65536) :
    readSamples (pre ++ l.flatMap le16) 200 l.length = l := by
  apply List.ext_getElem
  · simp [readSamples]
  · intro i h1 h2
    have hi : i < l.length := h2
    simp only [readSamples, List.getElem_map, List.getElem_range]
    rw [List.getD_append_right _ _ _ _ (by omega),
      List.getD_append_right _ _ _ _ (by omega), hpre]
    have e1 : 200 + 2 * i - 200 = 2 * i := by omega
    have e2 : 200 + 2 * i + 1 - 200 = 2 * i + 1 := by omega
    rw [e1, e2]
    obtain ⟨g1, g2⟩ := flatMap_le16_getD l i hi
    rw [g1, g2]
    have hx : l.getD i 0 < 65536 := by
      rw [List.getD_eq_getElem l 0 hi]
      exact hvals _ (List.getElem_mem hi)
    have hdiv : l.getD i 0 / 256 < 256 := by omega
    rw [Nat.mod_eq_of_lt hdiv, Nat.mod_add_div, List.getD_eq_getElem l 0 hi]

theorem write_ok (h w : Nat) (img : List Nat) (hh : h ≤ 65535) (hw : w ≤ 65535)
    (hlen : img.length = h * w) (hsz : h * w < 2 ^ 31) :
    SisImg.write ⟨h, w, img⟩ = some (List.replicate 10 32 ++ le16 (h % 65536)
      ++ le16 (w % 65536) ++ List.replicate 186 32 ++ img.flatMap le16) := by
  have e1 : h % 4294967296 = h := Nat.mod_eq_of_lt (by omega)
  have e2 : w % 4294967296 = w := Nat.mod_eq_of_lt (by omega)
  have e3 : 2 * h % 4294967296 = 2 * h := Nat.mod_eq_of_lt (by omega)
  have hprod : h * w < 2147483648 := by
    calc h * w < 2 ^ 31 := hsz
    _ = 2147483648 := by norm_num
  have e4 : 2 * h * w % 4294967296 = 2 * h * w := by
    apply Nat.mod_eq_of_lt
    have : 2 * h * w = 2 * (h * w) := by ring
    omega
  unfold SisImg.write
  simp only [e1, e2, e3, e4]
  rw [if_pos]
  rw [hlen]
  ring

theorem write_length (h w : Nat) (img : List Nat) (hh : h ≤ 65535)
    (hw : w ≤ 65535) (hlen : img.length = h * w) (hsz : h * w < 2 ^ 31) :
    ∃ bs, SisImg.write ⟨h, w, img⟩ = some bs ∧
      bs.length = 200 + 2 * (h * w) := by
  refine ⟨_, write_ok h w img hh hw hlen hsz, ?_⟩
  simp only [List.length_append, List.length_replicate, le16_length,
    flatMap_le16_length, hlen]

theorem bytes_getD_header (hn wn : Nat) (body : List Nat) :
    (List.replicate 10 32 ++ le16 hn ++ le16 wn ++ List.replicate 186 32
        ++ body).getD 10 0 = hn % 256 ∧
    (List.replicate 10 32 ++ le16 hn ++ le16 wn ++ List.replicate 186 32
        ++ body).getD 11 0 = hn / 256 % 256 ∧
    (List.replicate 10 32 ++ le16 hn ++ le16 wn ++ List.replicate 186 32
        ++ body).getD 12 0 = wn % 256 ∧
    (List.replicate 10 32 ++ le16 hn ++ le16 wn ++ List.replicate 186 32
        ++ body).getD 13 0 = wn / 256 % 256 := by
  refine ⟨?_, ?_, ?_, ?_⟩
  · rw [List.getD_append, List.getD_append, List.getD_append,
      List.getD_append_right] <;> simp [le16]
  · rw [List.getD_append, List.getD_append, List.getD_append,
      List.getD_append_right] <;> simp [le16]
  · rw [List.getD_append, List.getD_append, List.getD_append_right] <;>
      simp [le16]
  · rw [List.getD_append, List.getD_append, List.getD_append_right] <;>
      simp [le16]

theorem u16_bytes_recombine (n : Nat) (hn : n < 65536) :
    n % 256 + 256 * (n / 256 % 256) = n := by
  have hdiv : n / 256 < 256 := by omega
  rw [Nat.mod_eq_of_lt hdiv, Nat.mod_add_div]

theorem read_write_ok (h w : Nat) (img : List Nat) (hh1 : 1 ≤ h)
    (hh : h ≤ 65535) (hw1 : 1 ≤ w) (hw : w ≤ 65535)
    (hlen : img.length = h * w) (hvals : ∀ x ∈ img, x < 65536)
    (hsz : h * w < 2 ^ 31) :
    SisImg.read (List.replicate 10 32 ++ le16 (h % 65536) ++ le16 (w % 65536)
      ++ List.replicate 186 32 ++ img.flatMap le16) = some ⟨h, w, img⟩ := by
  have hhm : h % 65536 = h := Nat.mod_eq_of_lt (by omega)
  have hwm : w % 65536 = w := Nat.mod_eq_of_lt (by omega)
  rw [hhm, hwm]
  set bs := List.replicate 10 32 ++ le16 h ++ le16 w ++ List.replicate 186 32
    ++ img.flatMap le16 with hbs
  have hblen : bs.length = 200 + 2 * (h * w) := by
    rw [hbs]
    simp only [List.length_append, List.length_replicate, le16_length,
      flatMap_le16_length, hlen]
  obtain ⟨g10, g11, g12, g13⟩ := bytes_getD_header h w (img.flatMap le16)
  have hr10 : readLE16 bs 10 = some h := by
    unfold readLE16
    rw [if_pos (by rw [hblen]; omega)]
    rw [hbs]
    rw [show (10 : Nat) + 1 = 11 from rfl, g10, g11,
      u16_bytes_recombine h (by omega)]
  have hr12 : readLE16 bs 12 = some w := by
    unfold readLE16
    rw [if_pos (by rw [hblen]; omega)]
    rw [hbs]
    rw [show (12 : Nat) + 1 = 13 from rfl, g12, g13,
      u16_bytes_recombine w (by omega)]
  have hpos : h * w ≠ 0 := by
    have := Nat.mul_pos (show 0 < h by omega) (show 0 < w by omega)
    omega
  unfold SisImg.read
  rw [hr10, hr12]
  simp only
  rw [if_neg hpos, if_pos (by rw [hblen])]
  have hsamp : readSamples bs 200 (h * w) = img := by
    rw [← hlen, hbs]
    exact readSamples_append _ img (by simp [le16]) hvals
  rw [hsamp]

theorem replicate_getD (n m : Nat) (v : Nat) (h : m < n) :
    (List.replicate n v).getD m 0 = v := by
  rw [List.getD_eq_getElem _ _ (by simpa using h), List.getElem_replicate]

theorem write_overflow_none (h w n : Nat) (hh : h ≤ 65535) (hw : w ≤ 65535)
    (hbig : 2 ^ 31 ≤ h * w) (hn : n = h * w) :
    SisImg.write ⟨h, w, List.replicate n 0⟩ = none := by
  have e1 : h % 4294967296 = h := Nat.mod_eq_of_lt (by omega)
  have e2 : w % 4294967296 = w := Nat.mod_eq_of_lt (by omega)
  have e3 : 2 * h % 4294967296 = 2 * h := Nat.mod_eq_of_lt (by omega)
  unfold SisImg.write
  simp only [e1, e2, e3, List.length_replicate, hn]
  rw [if_neg]
  intro hcontra
  have hmul : 2 * h * w = 2 * (h * w) := by ring
  have hlt : 2 * h * w % 4294967296 < 4294967296 :=
    Nat.mod_lt _ (by omega)
  omega

/-- C1 counterexample: for the 65535 × 65535 grid (dimensions inside the
claimed `[1, 65535]` range), the `u32` buffer-length computation in
`SisImg::write` wraps, the writer panics, and no byte stream round-trips
back to the grid. -/
theorem C1_counterexample :
    (SisImg.write ⟨65535, 65535, List.replicate (65535 * 65535) 0⟩).bind
        SisImg.read
      ≠ some ⟨65535, 65535, List.replicate (65535 * 65535) 0⟩ := by
  rw [write_overflow_none 65535 65535 (65535 * 65535) (by norm_num)
    (by norm_num) (by norm_num) rfl]
  exact fun hc => Option.noConfusion hc

/-- C1 (amended): for every grid with height and width in `[1, 65535]`,
16-bit sample values, the row-major length invariant, and
`height * width < 2^31` (so that the writer's `u32` byte count does not
overflow), decoding the byte stream produced by encoding the grid yields
the grid back: same height, width and samples. -/
theorem C1_roundtrip (h w : Nat) (img : List Nat) (hh1 : 1 ≤ h)
    (hh : h ≤ 65535) (hw1 : 1 ≤ w) (hw : w ≤ 65535)
    (hlen : img.length = h * w) (hvals : ∀ x ∈ img, x < 65536)
    (hsz : h * w < 2 ^ 31) :
    ∃ bs, SisImg.write ⟨h, w, img⟩ = some bs ∧
      SisImg.read bs = some ⟨h, w, img⟩ :=
  ⟨_, write_ok h w img hh hw hlen hsz,
    read_write_ok h w img hh1 hh hw1 hw hlen hvals hsz⟩

/-- C1 witness: the round-trip theorem applied to the concrete 2 × 2 grid
with samples `[1, 2, 3, 4]`. -/
theorem C1_roundtrip_witness :
    ∃ bs, SisImg.write ⟨2, 2, [1, 2, 3, 4]⟩ = some bs ∧
      SisImg.read bs = some ⟨2, 2, [1, 2, 3, 4]⟩ :=
  C1_roundtrip 2 2 [1, 2, 3, 4] (by decide) (by decide) (by decide)
    (by decide) (by decide) (by decide) (by decide)

theorem bytes_getD_front (hn wn : Nat) (body : List Nat) (i : Nat)
    (hi : i < 10) :
    (List.replicate 10 32 ++ le16 hn ++ le16 wn ++ List.replicate 186 32
      ++ body).getD i 0 = 32 := by
  rw [List.getD_append, List.getD_append, List.getD_append, List.getD_append,
    replicate_getD 10 i 32 hi] <;>
    (simp only [List.length_append, List.length_replicate, le16_length]; omega)

theorem bytes_getD_mid (hn wn : Nat) (body : List Nat) (i : Nat)
    (h14 : 14 ≤ i) (h200 : i < 200) :
    (List.replicate 10 32 ++ le16 hn ++ le16 wn ++ List.replicate 186 32
      ++ body).getD i 0 = 32 := by
  rw [List.getD_append, List.getD_append_right]
  · apply replicate_getD
    simp only [List.length_append, List.length_replicate, le16_length]
    omega
  · simp only [List.length_append, List.length_replicate, le16_length]
    omega
  · simp only [List.length_append, List.length_replicate, le16_length]
    omega

theorem bytes_getD_body (hn wn : Nat) (body : List Nat) (m : Nat) :
    (List.replicate 10 32 ++ le16 hn ++ le16 wn ++ List.replicate 186 32
      ++ body).getD (200 + m) 0 = body.getD m 0 := by
  have hlen200 : (List.replicate 10 32 ++ le16 hn ++ le16 wn
      ++ List.replicate 186 32).length = 200 := by
    simp [le16]
  rw [List.getD_append_right]
  · rw [hlen200, Nat.add_sub_cancel_left]
  · rw [hlen200]
    omega

/-- C6 counterexample: for the 46341 × 46341 grid (dimensions within the
16-bit range, so a legal `SisImg`), `2 * height * width` overflows the
writer's `u32` byte count, the writer panics, and no byte stream of length
`200 + 2 * height * width` (nor any byte stream at all) is produced. -/
theorem C6_counterexample :
    ¬ ∃ bs, SisImg.write ⟨46341, 46341, List.replicate (46341 * 46341) 0⟩
        = some bs ∧ bs.length = 200 + 2 * (46341 * 46341) := by
  rintro ⟨bs, hbs, -⟩
  rw [write_overflow_none 46341 46341 (46341 * 46341) (by norm_num)
    (by norm_num) (by norm_num) rfl] at hbs
  exact Option.noConfusion hbs

/-- C6 (amended): for every grid with height and width at most 65535, the
row-major length invariant, 16-bit sample values, and
`height * width < 2^31` (so the writer's `u32` byte count does not
overflow), encoding produces exactly `200 + 2 * height * width` bytes:
offsets `[0, 10)` and `[14, 200)` hold the ASCII space `0x20`, offsets
10–13 hold height then width as little-endian unsigned 16-bit values, and
from offset 200 the samples follow as little-endian unsigned 16-bit
values in row-major order. -/
theorem C6_encode_layout (h w : Nat) (img : List Nat) (hh : h ≤ 65535)
    (hw : w ≤ 65535) (hlen : img.length = h * w)
    (hvals : ∀ x ∈ img, x < 65536) (hsz : h * w < 2 ^ 31) :
    ∃ bs, SisImg.write ⟨h, w, img⟩ = some bs ∧
      bs.length = 200 + 2 * (h * w) ∧
      (∀ i < 10, bs.getD i 0 = 32) ∧
      (∀ i, 14 ≤ i → i < 200 → bs.getD i 0 = 32) ∧
      bs.getD 10 0 = h % 256 ∧ bs.getD 11 0 = h / 256 ∧
      bs.getD 12 0 = w % 256 ∧ bs.getD 13 0 = w / 256 ∧
      (∀ k < h * w, bs.getD (200 + 2 * k) 0 = img.getD k 0 % 256 ∧
        bs.getD (200 + 2 * k + 1) 0 = img.getD k 0 / 256) := by
  have hwrite := write_ok h w img hh hw hlen hsz
  have hhm : h % 65536 = h := Nat.mod_eq_of_lt (by omega)
  have hwm : w % 65536 = w := Nat.mod_eq_of_lt (by omega)
  rw [hhm, hwm] at hwrite
  obtain ⟨g10, g11, g12, g13⟩ := bytes_getD_header h w (img.flatMap le16)
  refine ⟨_, hwrite, ?_, ?_, ?_, ?_, ?_, ?_, ?_, ?_⟩
  · simp only [List.length_append, List.length_replicate, le16_length,
      flatMap_le16_length, hlen]
  · intro i hi
    exact bytes_getD_front h w (img.flatMap le16) i hi
  · intro i h14 h200
    exact bytes_getD_mid h w (img.flatMap le16) i h14 h200
  · exact g10
  · rw [g11]
    exact Nat.mod_eq_of_lt (by omega)
  · exact g12
  · rw [g13]
    exact Nat.mod_eq_of_lt (by omega)
  · intro k hk
    have hk' : k < img.length := by omega
    obtain ⟨s1, s2⟩ := flatMap_le16_getD img k hk'
    have hx : img.getD k 0 < 65536 := by
      rw [List.getD_eq_getElem img 0 hk']
      exact hvals _ (List.getElem_mem hk')
    constructor
    · rw [bytes_getD_body h w (img.flatMap le16) (2 * k), s1]
    · rw [show 200 + 2 * k + 1 = 200 + (2 * k + 1) by omega,
        bytes_getD_body h w (img.flatMap le16) (2 * k + 1), s2]
      exact Nat.mod_eq_of_lt (by omega)

/-- C6 witness: the layout theorem applied to the concrete 1 × 2 grid with
samples `[513, 514]`. -/
theorem C6_encode_layout_witness :
    ∃ bs, SisImg.write ⟨1, 2, [513, 514]⟩ = some bs ∧
      bs.length = 200 + 2 * (1 * 2) ∧
      (∀ i < 10, bs.getD i 0 = 32) ∧
      (∀ i, 14 ≤ i → i < 200 → bs.getD i 0 = 32) ∧
      bs.getD 10 0 = 1 % 256 ∧ bs.getD 11 0 = 1 / 256 ∧
      bs.getD 12 0 = 2 % 256 ∧ bs.getD 13 0 = 2 / 256 ∧
      (∀ k < 1 * 2, bs.getD (200 + 2 * k) 0 = [513, 514].getD k 0 % 256 ∧
        bs.getD (200 + 2 * k + 1) 0 = [513, 514].getD k 0 / 256) :=
  C6_encode_layout 1 2 [513, 514] (by decide) (by decide) (by decide)
    (by decide) (by decide)

/-! ## Flattening and adjacent deduplication -/

theorem dedupAdj_head [DecidableEq α] (b : α) (rest : List α) :
    ∃ t, dedupAdj (b :: rest) = b :: t := by
  induction rest generalizing b with
  | nil => exact ⟨[], rfl⟩
  | cons c rest' ih =>
    by_cases hbc : b = c
    · obtain ⟨t, ht⟩ := ih c
      refine ⟨t, ?_⟩
      simp only [dedupAdj, if_pos hbc]
      rw [ht, hbc]
    · exact ⟨dedupAdj (c :: rest'), by simp only [dedupAdj, if_neg hbc]⟩

theorem dedupAdj_sublist [DecidableEq α] :
    ∀ l : List α, (dedupAdj l).Sublist l
  | [] => by simp [dedupAdj]
  | [a] => by simp [dedupAdj]
  | a :: b :: rest => by
    by_cases hab : a = b
    · simp only [dedupAdj, if_pos hab]
      exact (dedupAdj_sublist (b :: rest)).cons a
    · simp only [dedupAdj, if_neg hab]
      exact (dedupAdj_sublist (b :: rest)).cons₂ a

theorem dedupAdj_chain [DecidableEq α] :
    ∀ l : List α, (dedupAdj l).Chain' (fun x y => x ≠ y)
  | [] => by simp [dedupAdj]
  | [a] => by simp [dedupAdj]
  | a :: b :: rest => by
    by_cases hab : a = b
    · simp only [dedupAdj, if_pos hab]
      exact dedupAdj_chain (b :: rest)
    · simp only [dedupAdj, if_neg hab]
      obtain ⟨t, ht⟩ := dedupAdj_head b rest
      rw [ht, List.chain'_cons]
      exact ⟨hab, ht ▸ dedupAdj_chain (b :: rest)⟩

theorem dedupAdj_eq_of_chain [DecidableEq α] :
    ∀ l : List α, l.Chain' (fun x y => x ≠ y) → dedupAdj l = l
  | [], _ => rfl
  | [_], _ => rfl
  | a :: b :: rest, h => by
    rw [List.chain'_cons] at h
    simp only [dedupAdj, if_neg h.1]
    rw [dedupAdj_eq_of_chain (b :: rest) h.2]

/-- C5: flattening a notification batch concatenates every referenced
path in delivery order and removes exactly the adjacent duplicates:
the result is a subsequence of the concatenation (first occurrences keep
their relative position), no two adjacent entries of the result are
equal, a path list without adjacent repeats is left unchanged (only
adjacent repeats collapse), `[[a,b],[b,b,c]]` flattens to `[a,b,c]`, and
non-adjacent repeats survive: `[a,b,a]` stays `[a,b,a]`. -/
theorem C5_flatten_dedup :
    (∀ events : List (List FPath),
      (handleEventsPaths events).Sublist (events.flatMap fun ev => ev)) ∧
    (∀ events : List (List FPath),
      (handleEventsPaths events).Chain' (fun x y => x ≠ y)) ∧
    (∀ l : List FPath, l.Chain' (fun x y => x ≠ y) → dedupAdj l = l) ∧
    handleEventsPaths [["a".toList, "b".toList],
        ["b".toList, "b".toList, "c".toList]]
      = ["a".toList, "b".toList, "c".toList] ∧
    dedupAdj ["a".toList, "b".toList, "a".toList]
      = ["a".toList, "b".toList, "a".toList] :=
  ⟨fun events => dedupAdj_sublist _,
   fun events => dedupAdj_chain _,
   fun l h => dedupAdj_eq_of_chain l h,
   by decide,
   by decide⟩

/-- C5 witness: the only-adjacent-repeats-collapse conjunct applied to
the concrete duplicate-free list `[x, y]`. -/
theorem C5_flatten_dedup_witness :
    dedupAdj ["x".toList, "y".toList] = ["x".toList, "y".toList] :=
  C5_flatten_dedup.2.2.1 ["x".toList, "y".toList]
    (by rw [List.chain'_cons]; exact ⟨by decide, List.chain'_singleton _⟩)

/-! ## `findpattern` and processor behaviour -/

theorem findpattern_mem (paths : List FPath) (pat : List Char) (p : FPath)
    (h : findpattern paths pat = .ok p) : p ∈ paths := by
  unfold findpattern at h
  cases hf : paths.filter (fun x => containsSeq pat x) with
  | nil =>
    rw [hf] at h
    exact Except.noConfusion h
  | cons q rest =>
    rw [hf] at h
    simp only [Except.ok.injEq] at h
    subst h
    exact List.mem_of_mem_filter (hf ▸ List.mem_cons_self q rest)

theorem findpattern_error (paths : List FPath) (pat : List Char) (e : ProcErr)
    (h : findpattern paths pat = .error e) : e = .patternMissing pat := by
  unfold findpattern at h
  cases hf : paths.filter (fun x => containsSeq pat x) with
  | nil =>
    rw [hf] at h
    simp only [Except.error.injEq] at h
    exact h.symm
  | cons q rest =>
    rw [hf] at h
    exact Except.noConfusion h

theorem findpattern_none (paths : List FPath) (pat : List Char)
    (h : ∀ p ∈ paths, containsSeq pat p = false) :
    findpattern paths pat = .error (.patternMissing pat) := by
  unfold findpattern
  have hnil : paths.filter (fun x => containsSeq pat x) = [] :=
    List.filter_eq_nil_iff.mpr fun a ha => by simp [h a ha]
  rw [hnil]

theorem findpattern_first (l1 l2 : List FPath) (p : FPath) (pat : List Char)
    (h1 : ∀ q ∈ l1, containsSeq pat q = false) (hp : containsSeq pat p = true) :
    findpattern (l1 ++ p :: l2) pat = .ok p := by
  unfold findpattern
  rw [List.filter_append,
    List.filter_eq_nil_iff.mpr fun a ha => by simp [h1 a ha],
    List.nil_append, List.filter_cons_of_pos hp]

theorem fkspecies_missing (lnf : ℚ → ℚ) (outpath : FPath) (fs : FS)
    (paths : List FPath) (hfn : ∀ p ∈ paths, (fileName p).isSome)
    (h3 : ∀ p ∈ paths, containsSeq tokRaw3 p = false) :
    ∃ pat, FKSpecies.procRes lnf outpath fs paths
      = (fs, some (.patternMissing pat)) := by
  rcases hf1 : findpattern paths tokRaw1 with e1 | p1
  · refine ⟨tokRaw1, ?_⟩
    simp only [FKSpecies.procRes, hf1]
    rw [findpattern_error paths tokRaw1 e1 hf1]
  · have hp1 := findpattern_mem paths tokRaw1 p1 hf1
    obtain ⟨fn1, hfn1⟩ := Option.isSome_iff_exists.mp (hfn p1 hp1)
    rcases hf2 : findpattern paths tokRaw2 with e2 | p2
    · refine ⟨tokRaw2, ?_⟩
      simp only [FKSpecies.procRes, hf1, hfn1, hf2]
      rw [findpattern_error paths tokRaw2 e2 hf2]
    · have hp2 := findpattern_mem paths tokRaw2 p2 hf2
      obtain ⟨fn2, hfn2⟩ := Option.isSome_iff_exists.mp (hfn p2 hp2)
      have hf3 : findpattern paths tokRaw3 = .error (.patternMissing tokRaw3) :=
        findpattern_none paths tokRaw3 h3
      refine ⟨tokRaw3, ?_⟩
      simp only [FKSpecies.procRes, hf1, hfn1, hf2, hfn2, hf3]

/-- C4: a batch whose paths never contain one of the required tokens
makes `FKSpecies::proc` fail with a missing-pattern error, leaving the
filesystem untouched (no raw copies, no result file); and within
`findpattern`, when several paths contain the token the first one in
batch order is selected.  (The paths are assumed to carry extractable
file names, as watcher-reported file paths do; a path without one would
fail earlier with a different error.) -/
theorem C4_missing_token :
    (∀ (lnf : ℚ → ℚ) (outpath : FPath) (fs : FS) (paths : List FPath),
      (∀ p ∈ paths, (fileName p).isSome) →
      (∀ p ∈ paths, containsSeq tokRaw3 p = false) →
      ∃ pat, FKSpecies.procRes lnf outpath fs paths
        = (fs, some (.patternMissing pat))) ∧
    (∀ (l1 l2 : List FPath) (p : FPath) (pat : List Char),
      (∀ q ∈ l1, containsSeq pat q = false) → containsSeq pat p = true →
      findpattern (l1 ++ p :: l2) pat = .ok p) :=
  ⟨fkspecies_missing, findpattern_first⟩

/-- C4 witness: a concrete batch containing `rawimg-0001` and
`rawimg-0002` but no `rawimg-0003` fails with a missing-pattern error and
leaves the (empty) filesystem unchanged; and `findpattern` picks the
first of two `rawimg-0001` matches. -/
theorem C4_missing_token_witness :
    (∃ pat, FKSpecies.procRes (fun x => x) "out".toList []
        ["in/rawimg-0001.sis".toList, "in/rawimg-0002.sis".toList]
      = ([], some (.patternMissing pat))) ∧
    findpattern (["in/zzz.sis".toList]
        ++ "in/rawimg-0001-a.sis".toList :: ["in/rawimg-0001-b.sis".toList])
        tokRaw1
      = .ok "in/rawimg-0001-a.sis".toList :=
  ⟨C4_missing_token.1 (fun x => x) "out".toList []
      ["in/rawimg-0001.sis".toList, "in/rawimg-0002.sis".toList]
      (by decide) (by decide),
   C4_missing_token.2 ["in/zzz.sis".toList] ["in/rawimg-0001-b.sis".toList]
      "in/rawimg-0001-a.sis".toList tokRaw1 (by decide) (by decide)⟩

/-- C8 counterexample: with the `FKSpecies` (OpticalDensity) processor
bound, handling an empty batch is not a no-op success: the processor
fails with the missing-pattern error for `rawimg-0001`. -/
theorem C8_counterexample :
    (FKSpecies.procRes (fun x => x) "out".toList [] []).2
      = some (.patternMissing tokRaw1) := rfl

/-- C8 (amended): an empty notification batch flattens to an empty
`WorkBatch`; the `Identity` processor treats it as a no-op (success, no
files written), but the `FKSpecies` processor fails on it with the
missing-pattern error for `rawimg-0001` (also writing nothing). -/
theorem C8_empty_batch (lnf : ℚ → ℚ) (outpath : FPath) (fs : FS) :
    handleEventsPaths [] = [] ∧
    Identity.procRes outpath fs [] = (fs, none) ∧
    FKSpecies.procRes lnf outpath fs []
      = (fs, some (.patternMissing tokRaw1)) :=
  ⟨rfl, rfl, rfl⟩

/-- C9: `"identity"` selects the Identity processor and `"fkspecies"`
selects the FKSpecies processor, while any other name (including the
advertised `"dummy"`) fails; but the failure message advertises
`["identity", "dummy"]`, which is not the list of valid names — it omits
`"fkspecies"` and contains `"dummy"`, which the same function rejects. -/
theorem C9_getproc :
    getproc "identity" = .ok .identity ∧
    getproc "fkspecies" = .ok .fkspecies ∧
    getproc "foo" = .error ("foo", ["identity", "dummy"]) ∧
    getproc "dummy" = .error ("dummy", ["identity", "dummy"]) ∧
    ["identity", "dummy"] ≠ ["identity", "fkspecies"] :=
  ⟨rfl, rfl, rfl, rfl, by decide⟩

/-! ## Grid lemmas -/

theorem rowmajor_div (i j w : Nat) (hj : j < w) : (i * w + j) / w = i := by
  rw [Nat.mul_comm i w, Nat.mul_add_div (by omega), Nat.div_eq_of_lt hj]
  omega

theorem rowmajor_mod (i j w : Nat) (hj : j < w) : (i * w + j) % w = j := by
  rw [Nat.mul_comm i w, Nat.mul_add_mod]
  exact Nat.mod_eq_of_lt hj

theorem rowmajor_lt (i j h w : Nat) (hi : i < h) (hj : j < w) :
    i * w + j < h * w := by
  calc i * w + j < i * w + w := by omega
  _ = (i + 1) * w := by ring
  _ ≤ h * w := Nat.mul_le_mul_right w hi

theorem getD_take (l : List α) (n k : Nat) (d : α) (hk : k < n) :
    (l.take n).getD k d = l.getD k d := by
  rw [List.getD_eq_getElem?_getD, List.getD_eq_getElem?_getD,
    List.getElem?_take, if_pos hk]

theorem getD_drop (l : List α) (n k : Nat) (d : α) :
    (l.drop n).getD k d = l.getD (n + k) d := by
  rw [List.getD_eq_getElem?_getD, List.getD_eq_getElem?_getD,
    List.getElem?_drop]

theorem entry_range_map [Inhabited γ] (h w : Nat) (fn : Nat → γ) (i j : Nat)
    (hi : i < h) (hj : j < w) :
    Grid.entry ⟨h, w, (List.range (h * w)).map fn⟩ i j = fn (i * w + j) := by
  unfold Grid.entry
  have hidx : i * w + j < h * w := rowmajor_lt i j h w hi hj
  rw [List.getD_eq_getElem _ _ (by simpa using hidx), List.getElem_map,
    List.getElem_range]

theorem map_entry [Inhabited α] [Inhabited β] (f : α → β) (g : Grid α)
    (i j : Nat) (hlen : i * g.width + j < g.data.length) :
    (Grid.map f g).entry i j = f (g.entry i j) := by
  unfold Grid.map Grid.entry
  simp only
  rw [List.getD_eq_getElem _ _ (by simpa using hlen), List.getElem_map,
    List.getD_eq_getElem _ _ hlen]

theorem gridZipB_props [Inhabited α] [Inhabited β] [Inhabited γ]
    (f : α → β → γ) (a : Grid α) (b : Grid β)
    (hh : b.height = a.height) (hw : b.width = a.width) :
    ∃ g, gridZipB f a b = some g ∧ g.height = a.height ∧
      g.width = a.width ∧ g.data.length = a.height * a.width ∧
      ∀ i j, i < a.height → j < a.width →
        g.entry i j = f (a.entry i j) (b.entry i j) := by
  have hb : bcastOK b.height b.width a.height a.width = true := by
    unfold bcastOK
    rw [hh, hw]
    simp
  refine ⟨_, by unfold gridZipB; rw [if_pos hb], rfl, rfl, by simp, ?_⟩
  intro i j hi hj
  rw [entry_range_map a.height a.width _ i j hi hj]
  simp only
  rw [rowmajor_div i j a.width hj, rowmajor_mod i j a.width hj]
  by_cases h1 : b.height = 1
  · have hi0 : i = 0 := by omega
    by_cases w1 : b.width = 1
    · have hj0 : j = 0 := by omega
      rw [if_pos h1, if_pos w1, hi0, hj0]
    · rw [if_pos h1, if_neg w1, hi0]
  · by_cases w1 : b.width = 1
    · have hj0 : j = 0 := by omega
      rw [if_neg h1, if_pos w1, hj0]
    · rw [if_neg h1, if_neg w1]

theorem assignRows_props [Inhabited α] (out : Grid α) (r0 r1 : Nat)
    (src : Grid α) (hh : src.height = r1 - r0) (hw : src.width = out.width) :
    ∃ g, assignRows out r0 r1 src = some g ∧ g.height = out.height ∧
      g.width = out.width ∧ g.data.length = out.height * out.width ∧
      ∀ i j, i < out.height → j < out.width →
        g.entry i j = if r0 ≤ i ∧ i < r1 then src.entry (i - r0) j
          else out.entry i j := by
  have hb : bcastOK src.height src.width (r1 - r0) out.width = true := by
    unfold bcastOK
    rw [hh, hw]
    simp
  have heq : assignRows out r0 r1 src
      = some ⟨out.height, out.width,
        (List.range (out.height * out.width)).map fun k =>
          let i := k / out.width
          let j := k % out.width
          if r0 ≤ i ∧ i < r1 then
            src.entry (if src.height = 1 then 0 else i - r0)
              (if src.width = 1 then 0 else j)
          else out.entry i j⟩ := by
    unfold assignRows
    rw [if_pos hb]
  refine ⟨_, heq, rfl, rfl, by simp, ?_⟩
  intro i j hi hj
  rw [entry_range_map out.height out.width _ i j hi hj]
  simp only
  rw [rowmajor_div i j out.width hj, rowmajor_mod i j out.width hj]
  by_cases hreg : r0 ≤ i ∧ i < r1
  · rw [if_pos hreg, if_pos hreg]
    by_cases h1 : src.height = 1
    · have hi0 : i - r0 = 0 := by omega
      by_cases w1 : src.width = 1
      · have hj0 : j = 0 := by omega
        rw [if_pos h1, if_pos w1, hi0, hj0]
      · rw [if_pos h1, if_neg w1, hi0]
    · by_cases w1 : src.width = 1
      · have hj0 : j = 0 := by omega
        rw [if_neg h1, if_pos w1, hj0]
      · rw [if_neg h1, if_neg w1]
  · rw [if_neg hreg, if_neg hreg]

theorem rowsBefore_entry [Inhabited α] (g : Grid α) (r i j : Nat)
    (hi : i < r) (hj : j < g.width) :
    (rowsBefore g r).entry i j = g.entry i j := by
  unfold rowsBefore Grid.entry
  simp only
  exact getD_take _ _ _ _ (rowmajor_lt i j r g.width hi hj)

theorem rowsFrom_entry [Inhabited α] (g : Grid α) (r i j : Nat) :
    (rowsFrom g r).entry i j = g.entry (r + i) j := by
  unfold rowsFrom Grid.entry
  simp only
  rw [getD_drop]
  congr 1
  ring

theorem u16sub_cast (x y : Nat) (hx : x < 65536) (hy : y < 65536) :
    ((u16sub x y : Nat) : ℚ)
      = (if y ≤ x then (x : ℚ) - y else (x : ℚ) - y + 65536) := by
  unfold u16sub
  by_cases hyx : y ≤ x
  · rw [if_pos hyx]
    have e : (x + 65536 - y) % 65536 = x - y := by omega
    rw [e, Nat.cast_sub hyx]
  · rw [if_neg hyx]
    have e : (x + 65536 - y) % 65536 = x + 65536 - y := by omega
    rw [e, Nat.cast_sub (show y ≤ x + 65536 by omega)]
    push_cast
    ring

theorem subFrame_props (a r : Grid Nat) (hh : r.height = a.height)
    (hw : r.width = a.width) :
    ∃ s, subFrame a r = some s ∧ s.height = a.height ∧
      s.width = a.width ∧ s.data.length = a.height * a.width ∧
      ∀ i j, i < a.height → j < a.width →
        s.entry i j = ((u16sub (a.entry i j) (r.entry i j) : Nat) : ℚ) := by
  obtain ⟨g, hg, hgh, hgw, hglen, hge⟩ := gridZipB_props u16sub a r hh hw
  refine ⟨g.map (fun n : Nat => (n : ℚ)), ?_, hgh ▸ rfl, hgw ▸ rfl, ?_, ?_⟩
  · unfold subFrame
    rw [hg]
    rfl
  · show (g.data.map _).length = _
    rw [List.length_map, hglen]
  · intro i j hi hj
    rw [map_entry _ g i j (by rw [hglen, hgw]; exact rowmajor_lt i j _ _ hi hj),
      hge i j hi hj]

/-- C3 counterexample: for the 2 × 1 frames `A = [0, 0]`, `R = [1, 1]`,
the source computes the background-subtracted frame as
`(A - R).mapv(f32::from)` — an unsigned 16-bit subtraction before the
float conversion — so the entry where `A < R` is the wrapped value 65535,
not the negative value −1 that the spec's `float(A) - float(R)` formula
(`subFrameSpec`) yields; in particular the entry is not negative, so the
element-wise log never receives a negative underflow result. -/
theorem C3_counterexample :
    (subFrame ⟨2, 1, [0, 0]⟩ ⟨2, 1, [1, 1]⟩).map (fun s => s.entry 0 0)
      = some 65535 ∧
    (subFrameSpec ⟨2, 1, [0, 0]⟩ ⟨2, 1, [1, 1]⟩).entry 0 0 = -1 ∧
    ¬ ((65535 : ℚ) = -1) ∧ ¬ ((65535 : ℚ) < 0) := by
  refine ⟨?_, ?_, by norm_num, by norm_num⟩
  · decide
  · norm_num [subFrameSpec, Grid.entry]

/-- C3 (amended): the background-subtracted frame is computed by unsigned
16-bit subtraction (wrapping modulo 2^16; a debug build would panic on
underflow) followed by exact conversion to float: each entry equals
`A − R` when `R ≤ A` and `A − R + 65536` when `A < R`, and is therefore
never negative — the subsequent element-wise log can still meet 0 (giving
−∞) but never a negative underflow value. -/
theorem C3_subframe (a r : Grid Nat) (hh : r.height = a.height)
    (hw : r.width = a.width) (hva : ∀ x ∈ a.data, x < 65536)
    (hvr : ∀ x ∈ r.data, x < 65536)
    (hla : a.data.length = a.height * a.width)
    (hlr : r.data.length = r.height * r.width)
    (i j : Nat) (hi : i < a.height) (hj : j < a.width) :
    ∃ s, subFrame a r = some s ∧ s.height = a.height ∧ s.width = a.width ∧
      s.entry i j = (if r.entry i j ≤ a.entry i j
        then (a.entry i j : ℚ) - (r.entry i j : ℚ)
        else (a.entry i j : ℚ) - (r.entry i j : ℚ) + 65536) ∧
      0 ≤ s.entry i j := by
  obtain ⟨s, hs, hsh, hsw, hslen, hse⟩ := subFrame_props a r hh hw
  have hxa : a.entry i j < 65536 := by
    unfold Grid.entry
    rw [List.getD_eq_getElem _ _ (by rw [hla]; exact rowmajor_lt i j _ _ hi hj)]
    exact hva _ (List.getElem_mem _)
  have hxr : r.entry i j < 65536 := by
    unfold Grid.entry
    rw [List.getD_eq_getElem _ _ (by
      rw [hlr, hh, hw]
      exact rowmajor_lt i j _ _ hi hj)]
    exact hvr _ (List.getElem_mem _)
  refine ⟨s, hs, hsh, hsw, ?_, ?_⟩
  · rw [hse i j hi hj, u16sub_cast _ _ hxa hxr]
  · rw [hse i j hi hj]
    exact Nat.cast_nonneg _

/-- C3 witness: the amended subtraction semantics at the concrete 2 × 1
frames `A = [5, 3]`, `R = [2, 7]` (one entry in range, one wrapping). -/
theorem C3_subframe_witness :
    ∃ s, subFrame ⟨2, 1, [5, 3]⟩ ⟨2, 1, [2, 7]⟩ = some s ∧
      s.height = 2 ∧ s.width = 1 ∧
      s.entry 1 0 = (if (Grid.entry ⟨2, 1, [2, 7]⟩ 1 0
          ≤ Grid.entry ⟨2, 1, [5, 3]⟩ 1 0)
        then ((Grid.entry ⟨2, 1, [5, 3]⟩ 1 0 : Nat) : ℚ)
          - ((Grid.entry ⟨2, 1, [2, 7]⟩ 1 0 : Nat) : ℚ)
        else ((Grid.entry ⟨2, 1, [5, 3]⟩ 1 0 : Nat) : ℚ)
          - ((Grid.entry ⟨2, 1, [2, 7]⟩ 1 0 : Nat) : ℚ) + 65536) ∧
      0 ≤ s.entry 1 0 :=
  C3_subframe ⟨2, 1, [5, 3]⟩ ⟨2, 1, [2, 7]⟩ rfl rfl (by decide) (by decide)
    (by decide) (by decide) 1 0 (by decide) (by decide)

/-- C10 counterexample: on 3 × 1 frames (odd height) the two halves have
1 and 2 rows; `ndarray` broadcasts the 1-row slice across the 2-row slice
in the subtraction, but assigning the 2-row result into the 1-row output
region panics, so `calc_od` fails instead of returning a grid. -/
theorem C10_counterexample :
    calc_od (fun x => x) ⟨3, 1, [1, 1, 1]⟩ ⟨3, 1, [1, 1, 1]⟩
      ⟨3, 1, [1, 1, 1]⟩ = none := by
  decide

/-- Success of `calc_od` on equal shapes with even height, with the
resulting dimensions, data length and entry formulas. -/
theorem calc_od_even (lnf : ℚ → ℚ) (img1 img2 img3 : Grid Nat)
    (h2 : img2.height = img1.height) (w2 : img2.width = img1.width)
    (h3 : img3.height = img1.height) (w3 : img3.width = img1.width)
    (heven : img1.height % 2 = 0) :
    ∃ s1 s2 out, subFrame img1 img3 = some s1 ∧
      subFrame img2 img3 = some s2 ∧
      calc_od lnf img1 img2 img3 = some out ∧
      out.height = img1.height ∧ out.width = img1.width ∧
      out.data.length = img1.height * img1.width ∧
      (∀ i j, i < img1.height / 2 → j < img1.width →
        out.entry i j
          = lnf (s1.entry (img1.height / 2 + i) j) - lnf (s1.entry i j)) ∧
      (∀ i j, img1.height / 2 ≤ i → i < img1.height → j < img1.width →
        out.entry i j
          = lnf (s2.entry i j) - lnf (s2.entry (i - img1.height / 2) j)) := by
  obtain ⟨s1, hs1, s1h, s1w, s1len, s1e⟩ := subFrame_props img1 img3 h3 w3
  obtain ⟨s2, hs2, s2h, s2w, s2len, s2e⟩ :=
    subFrame_props img2 img3 (h3.trans h2.symm) (w3.trans w2.symm)
  have s2h' : s2.height = img1.height := s2h.trans h2
  have s2w' : s2.width = img1.width := s2w.trans w2
  have hd1hh : (rowsBefore (Grid.map lnf s1) (s1.height / 2)).height
      = (rowsFrom (Grid.map lnf s1) (s1.height / 2)).height := by
    show s1.height / 2 = s1.height - s1.height / 2
    rw [s1h]
    omega
  obtain ⟨d1, hd1, d1h, d1w, d1len, d1e⟩ :=
    gridZipB_props (fun a b => a - b)
      (rowsFrom (Grid.map lnf s1) (s1.height / 2))
      (rowsBefore (Grid.map lnf s1) (s1.height / 2)) hd1hh rfl
  have d1h' : d1.height = s1.height - s1.height / 2 := d1h
  have d1w' : d1.width = s1.width := d1w
  obtain ⟨out1, hout1, o1h, o1w, o1len, o1e⟩ :=
    assignRows_props
      ⟨img1.height, img1.width,
        List.replicate (img1.height * img1.width) (0 : ℚ)⟩
      0 (s1.height / 2) d1
      (by rw [d1h']; rw [s1h]; omega)
      (by rw [d1w']; show s1.width = img1.width; exact s1w)
  have o1h' : out1.height = img1.height := o1h
  have o1w' : out1.width = img1.width := o1w
  have hd2hh : (rowsBefore (Grid.map lnf s2) (s1.height / 2)).height
      = (rowsFrom (Grid.map lnf s2) (s1.height / 2)).height := by
    show s1.height / 2 = s2.height - s1.height / 2
    rw [s1h, s2h']
    omega
  obtain ⟨d2, hd2, d2h, d2w, d2len, d2e⟩ :=
    gridZipB_props (fun a b => a - b)
      (rowsFrom (Grid.map lnf s2) (s1.height / 2))
      (rowsBefore (Grid.map lnf s2) (s1.height / 2)) hd2hh rfl
  have d2h' : d2.height = s2.height - s1.height / 2 := d2h
  have d2w' : d2.width = s2.width := d2w
  obtain ⟨out2, hout2, o2h, o2w, o2len, o2e⟩ :=
    assignRows_props out1 (s1.height / 2) out1.height d2
      (by rw [d2h', s2h', o1h'])
      (by rw [d2w', s2w', o1w'])
  have o2h' : out2.height = img1.height := o2h.trans o1h'
  have o2w' : out2.width = img1.width := o2w.trans o1w'
  have hcalc : calc_od lnf img1 img2 img3 = some out2 := by
    simp only [calc_od, hs1, hs2, Option.bind_eq_bind, Option.some_bind,
      hd1, hout1, hd2, hout2]
  have o2len' : out2.data.length = img1.height * img1.width := by
    rw [o2len, o1h', o1w']
  refine ⟨s1, s2, out2, hs1, hs2, hcalc, o2h', o2w', o2len', ?_, ?_⟩
  · intro i j hi hj
    have hiO1 : i < out1.height := by
      rw [o1h']
      omega
    have hjO1 : j < out1.width := by
      rw [o1w']
      exact hj
    rw [o2e i j hiO1 hjO1, if_neg (by rw [s1h]; omega)]
    have hiO0 : i < img1.height := by omega
    rw [o1e i j (by exact hiO0) (by exact hj),
      if_pos ⟨Nat.zero_le i, by rw [s1h]; omega⟩]
    have hiD1 : i < (rowsFrom (Grid.map lnf s1) (s1.height / 2)).height := by
      show i < s1.height - s1.height / 2
      rw [s1h]
      omega
    have hjD1 : j < (rowsFrom (Grid.map lnf s1) (s1.height / 2)).width := by
      show j < s1.width
      rw [s1w]
      exact hj
    rw [Nat.sub_zero, d1e i j hiD1 hjD1]
    rw [rowsFrom_entry, rowsBefore_entry (Grid.map lnf s1) (s1.height / 2) i j
      (by rw [s1h]; omega) (by show j < s1.width; rw [s1w]; exact hj)]
    have hlen1 : (s1.height / 2 + i) * s1.width + j < s1.data.length := by
      rw [s1len, s1w, s1h]
      exact rowmajor_lt _ _ _ _ (by omega) hj
    have hlen2 : i * s1.width + j < s1.data.length := by
      rw [s1len, s1w]
      exact rowmajor_lt _ _ _ _ (by omega) hj
    rw [map_entry lnf s1 _ j hlen1, map_entry lnf s1 i j hlen2, s1h]
  · intro i j hi0 hi1 hj
    have hiO1 : i < out1.height := by
      rw [o1h']
      exact hi1
    have hjO1 : j < out1.width := by
      rw [o1w']
      exact hj
    rw [o2e i j hiO1 hjO1,
      if_pos ⟨by rw [s1h]; exact hi0, hiO1⟩]
    have hiD2 : i - s1.height / 2
        < (rowsFrom (Grid.map lnf s2) (s1.height / 2)).height := by
      show i - s1.height / 2 < s2.height - s1.height / 2
      rw [s1h, s2h']
      omega
    have hjD2 : j < (rowsFrom (Grid.map lnf s2) (s1.height / 2)).width := by
      show j < s2.width
      rw [s2w']
      exact hj
    rw [d2e _ j hiD2 hjD2]
    rw [rowsFrom_entry, rowsBefore_entry (Grid.map lnf s2) (s1.height / 2)
      (i - s1.height / 2) j (by rw [s1h]; omega)
      (by show j < s2.width; rw [s2w']; exact hj)]
    have hadd : s1.height / 2 + (i - s1.height / 2) = i := by
      rw [s1h]
      omega
    rw [hadd]
    have hlen1 : i * s2.width + j < s2.data.length := by
      rw [s2len, s2w, h2, w2]
      exact rowmajor_lt _ _ _ _ (by omega) hj
    have hlen2 : (i - s1.height / 2) * s2.width + j < s2.data.length := by
      rw [s2len, s2w, h2, w2, s1h]
      exact rowmajor_lt _ _ _ _ (by omega) hj
    rw [map_entry lnf s2 i j hlen1, map_entry lnf s2 _ j hlen2, s1h]

/-- C10 (amended): for every triple of equal-shaped input grids with EVEN
height, `calc_od` splits each frame at row `height / 2` into two equal
halves and succeeds, returning a grid of the input shape whose top half
is `ln`-bottom-half minus `ln`-top-half of the first subtracted frame and
whose bottom half is the symmetric computation on the second; for odd
heights the slice shapes differ by one row and the computation panics
instead of returning (see the odd-height counterexample). -/
theorem C10_even_height (lnf : ℚ → ℚ) (img1 img2 img3 : Grid Nat)
    (h2 : img2.height = img1.height) (w2 : img2.width = img1.width)
    (h3 : img3.height = img1.height) (w3 : img3.width = img1.width)
    (heven : img1.height % 2 = 0) :
    ∃ s1 s2 out, subFrame img1 img3 = some s1 ∧
      subFrame img2 img3 = some s2 ∧
      calc_od lnf img1 img2 img3 = some out ∧
      out.height = img1.height ∧ out.width = img1.width ∧
      (∀ i j, i < img1.height / 2 → j < img1.width →
        out.entry i j
          = lnf (s1.entry (img1.height / 2 + i) j) - lnf (s1.entry i j)) ∧
      (∀ i j, img1.height / 2 ≤ i → i < img1.height → j < img1.width →
        out.entry i j
          = lnf (s2.entry i j) - lnf (s2.entry (i - img1.height / 2) j)) := by
  obtain ⟨s1, s2, out, e1, e2, e3, e4, e5, _, e6, e7⟩ :=
    calc_od_even lnf img1 img2 img3 h2 w2 h3 w3 heven
  exact ⟨s1, s2, out, e1, e2, e3, e4, e5, e6, e7⟩

/-- C10 witness: the even-height theorem applied to concrete 2 × 1 frames
with the identity in place of the abstract log. -/
theorem C10_even_height_witness :
    ∃ s1 s2 out,
      subFrame ⟨2, 1, [3, 4]⟩ ⟨2, 1, [1, 1]⟩ = some s1 ∧
      subFrame ⟨2, 1, [5, 6]⟩ ⟨2, 1, [1, 1]⟩ = some s2 ∧
      calc_od (fun x => x) ⟨2, 1, [3, 4]⟩ ⟨2, 1, [5, 6]⟩ ⟨2, 1, [1, 1]⟩
        = some out ∧
      out.height = 2 ∧ out.width = 1 ∧
      (∀ i j, i < 1 → j < 1 →
        out.entry i j = s1.entry (1 + i) j - s1.entry i j) ∧
      (∀ i j, 1 ≤ i → i < 2 → j < 1 →
        out.entry i j = s2.entry i j - s2.entry (i - 1) j) :=
  C10_even_height (fun x => x) ⟨2, 1, [3, 4]⟩ ⟨2, 1, [5, 6]⟩ ⟨2, 1, [1, 1]⟩
    rfl rfl rfl rfl rfl

/-- C7 counterexample: at the computed value 69 the transform gives
`(69 + 1) * 1000 = 70000`, outside `[0, 65535]`; the source's `as u16`
cast saturates to 65535, whereas the claimed truncating (non-clamping)
conversion (`truncWrapCastU16`) would give `70000 mod 2^16 = 4464`. -/
theorem C7_counterexample :
    rescaleElem 69 = 65535 ∧
    truncWrapCastU16 ((69 + 1) * 1000) = 4464 ∧
    (65535 : Nat) ≠ 4464 := by
  refine ⟨?_, ?_, by decide⟩
  · norm_num [rescaleElem, fCastU16, ratTrunc]
  · norm_num [truncWrapCastU16, ratTrunc]
    decide

/-- C7 (amended): every element of the output grid is transformed as
`encoded = (output + 1.0) * 1000.0` and then converted with Rust's
SATURATING float-to-`u16` cast: values below 0 give 0, values of 65536
or more give 65535, and in-range values keep their integer part
(truncation toward zero); the result never exceeds 65535 — the cast
clamps rather than truncating with wraparound. -/
theorem C7_rescale_saturates (v : ℚ) :
    rescaleElem v = fCastU16 ((v + 1) * 1000) ∧
    ((v + 1) * 1000 < 0 → rescaleElem v = 0) ∧
    (65536 ≤ (v + 1) * 1000 → rescaleElem v = 65535) ∧
    (0 ≤ (v + 1) * 1000 → (v + 1) * 1000 < 65536 →
      rescaleElem v = (Int.floor ((v + 1) * 1000)).toNat) ∧
    rescaleElem v ≤ 65535 := by
  have hrw : rescaleElem v = fCastU16 ((v + 1) * 1000) := rfl
  refine ⟨hrw, ?_, ?_, ?_, ?_⟩
  · intro hneg
    rw [hrw]
    unfold fCastU16
    rw [if_pos hneg]
  · intro hbig
    have hpos : ¬ ((v + 1) * 1000 < 0) := by
      push_neg
      calc (0 : ℚ) ≤ 65536 := by norm_num
      _ ≤ (v + 1) * 1000 := hbig
    rw [hrw]
    unfold fCastU16 ratTrunc
    rw [if_neg hpos, if_neg hpos]
    have hfl : (65536 : ℤ) ≤ Int.floor ((v + 1) * 1000) := by
      rw [Int.le_floor]
      exact_mod_cast hbig
    have : 65535 ≤ (Int.floor ((v + 1) * 1000)).toNat := by omega
    omega
  · intro hge hlt
    have hpos : ¬ ((v + 1) * 1000 < 0) := by push_neg; exact hge
    rw [hrw]
    unfold fCastU16 ratTrunc
    rw [if_neg hpos, if_neg hpos]
    have hfl : Int.floor ((v + 1) * 1000) < (65536 : ℤ) := by
      rw [Int.floor_lt]
      exact_mod_cast hlt
    omega
  · rw [hrw]
    unfold fCastU16
    by_cases hneg : (v + 1) * 1000 < 0
    · rw [if_pos hneg]
      omega
    · rw [if_neg hneg]
      omega

/-- C7 witness: the saturating-cast description applied at the concrete
in-range output value 2, where the encoded value is `3000`. -/
theorem C7_rescale_saturates_witness :
    rescaleElem 2 = (Int.floor (((2 : ℚ) + 1) * 1000)).toNat ∧
    rescaleElem 2 ≤ 65535 :=
  ⟨(C7_rescale_saturates 2).2.2.2.1 (by norm_num) (by norm_num),
   (C7_rescale_saturates 2).2.2.2.2⟩

/-! ## Filesystem lookup lemmas and the `FKSpecies` output-location run -/

theorem fsSet_lookup_same (fs : FS) (p : FPath) (c : List Nat) :
    (fsSet fs p c).lookup p = some c := by
  simp [fsSet, List.lookup]

theorem lookup_filter_ne (fs : FS) (p q : FPath) (hne : q ≠ p) :
    (fs.filter fun e => !(e.1 == p)).lookup q = fs.lookup q := by
  induction fs with
  | nil => rfl
  | cons a rest ih =>
    obtain ⟨k, b⟩ := a
    by_cases hkp : k = p
    · rw [List.filter_cons_of_neg (by simp [hkp])]
      rw [ih]
      have hqk : (q == k) = false := by
        subst hkp
        exact beq_false_of_ne hne
      simp [List.lookup, hqk]
    · rw [List.filter_cons_of_pos (by simp [hkp])]
      by_cases hqk : q = k
      · subst hqk
        simp [List.lookup]
      · have h1 : (q == k) = false := beq_false_of_ne hqk
        simp [List.lookup, h1, ih]

theorem fsSet_lookup_ne (fs : FS) (p q : FPath) (c : List Nat) (hne : q ≠ p) :
    (fsSet fs p c).lookup q = fs.lookup q := by
  unfold fsSet
  have h1 : (q == p) = false := beq_false_of_ne hne
  simp [List.lookup, h1]
  exact lookup_filter_ne fs p q hne

/-- A valid 2 × 1 SIS byte stream with both samples equal to 1, used as
the content of the three concrete raw input files. -/
def cexBytes : List Nat :=
  List.replicate 10 32 ++ [2, 0] ++ [1, 0] ++ List.replicate 186 32
    ++ [1, 0, 1, 0]

/-- Concrete input filesystem: the three raw files under `in/`. -/
def cexFs : FS :=
  [("in/rawimg-0001.sis".toList, cexBytes),
   ("in/rawimg-0002.sis".toList, cexBytes),
   ("in/rawimg-0003.sis".toList, cexBytes)]

/-- The concrete input batch. -/
def cexPaths : List FPath :=
  ["in/rawimg-0001.sis".toList, "in/rawimg-0002.sis".toList,
   "in/rawimg-0003.sis".toList]

/-- The filesystem after the first raw copy of the concrete run. -/
def cexOut1 : FS := fsSet cexFs "out/rawimg-0001.sis".toList cexBytes

/-- The filesystem after the second raw copy of the concrete run. -/
def cexOut2 : FS := fsSet cexOut1 "out/rawimg-0002.sis".toList cexBytes

/-- The filesystem after the third raw copy of the concrete run. -/
def cexOut3 : FS := fsSet cexOut2 "out/rawimg-0003.sis".toList cexBytes

/-- C2: evaluating a successful `FKSpecies` run with output directory
`out/dir` on a batch of three valid raw files shows the divergence from
the claim: because the output paths are built with
`PathBuf::with_file_name` on the output directory, the three raw copies
and the result file land in `out/` — the PARENT of the bound output
directory, as siblings of `out/dir` — and nothing is written inside
`out/dir/` itself.  (`pushPath`, which `Identity` uses, is what would
have placed them inside the directory.) -/
theorem C2_output_location :
    (FKSpecies.procRes (fun _ => 0) "out/dir".toList cexFs cexPaths).2
      = none ∧
    (FKSpecies.procRes (fun _ => 0) "out/dir".toList cexFs cexPaths).1.lookup
      "out/rawimg-0001.sis".toList = some cexBytes ∧
    (FKSpecies.procRes (fun _ => 0) "out/dir".toList cexFs cexPaths).1.lookup
      "out/dir/rawimg-0001.sis".toList = none ∧
    ((FKSpecies.procRes (fun _ => 0) "out/dir".toList cexFs cexPaths).1.lookup
      "out/20140000-img-0000.sis".toList).isSome = true ∧
    (FKSpecies.procRes (fun _ => 0) "out/dir".toList cexFs cexPaths).1.lookup
      "out/dir/20140000-img-0000.sis".toList = none ∧
    withFileName "out/dir".toList "rawimg-0001.sis".toList
      = "out/rawimg-0001.sis".toList ∧
    pushPath "out/dir".toList "rawimg-0001.sis".toList
      = "out/dir/rawimg-0001.sis".toList := by
  have hf1 : findpattern cexPaths tokRaw1 = .ok "in/rawimg-0001.sis".toList :=
    rfl
  have hf2 : findpattern cexPaths tokRaw2 = .ok "in/rawimg-0002.sis".toList :=
    rfl
  have hf3 : findpattern cexPaths tokRaw3 = .ok "in/rawimg-0003.sis".toList :=
    rfl
  have hn1 : fileName "in/rawimg-0001.sis".toList
      = some "rawimg-0001.sis".toList := by decide
  have hn2 : fileName "in/rawimg-0002.sis".toList
      = some "rawimg-0002.sis".toList := by decide
  have hn3 : fileName "in/rawimg-0003.sis".toList
      = some "rawimg-0003.sis".toList := by decide
  have hr1 : sisReadFs cexFs "in/rawimg-0001.sis".toList
      = .ok ⟨2, 1, [1, 1]⟩ := rfl
  have hr2 : sisReadFs cexFs "in/rawimg-0002.sis".toList
      = .ok ⟨2, 1, [1, 1]⟩ := rfl
  have hr3 : sisReadFs cexFs "in/rawimg-0003.sis".toList
      = .ok ⟨2, 1, [1, 1]⟩ := rfl
  have htg : SisImg.toGrid ⟨2, 1, [1, 1]⟩ = (⟨2, 1, [1, 1]⟩ : Grid Nat) := rfl
  obtain ⟨s1, s2, od, hs1x, hs2x, hcal, odh, odw, odlen, -, -⟩ :=
    calc_od_even (fun _ => (0 : ℚ)) ⟨2, 1, [1, 1]⟩ ⟨2, 1, [1, 1]⟩
      ⟨2, 1, [1, 1]⟩ rfl rfl rfl rfl rfl
  have odh' : od.height = 2 := odh
  have odw' : od.width = 1 := odw
  have odlen' : od.data.length = 2 := odlen
  have hnew : SisImg.new (Grid.map rescaleElem od)
      = .ok ⟨od.height, od.width, od.data.map rescaleElem⟩ := by
    unfold SisImg.new
    rw [if_pos (show (Grid.map rescaleElem od).height ≤ 65535 by
        show od.height ≤ 65535
        omega),
      if_pos (show (Grid.map rescaleElem od).width ≤ 65535 by
        show od.width ≤ 65535
        omega)]
    rfl
  have hwritex := write_ok od.height od.width (od.data.map rescaleElem)
    (by omega) (by omega)
    (by rw [List.length_map, odlen', odh', odw'])
    (by rw [odh', odw']; norm_num)
  have hc1 : fsCopy cexFs "in/rawimg-0001.sis".toList
      (withFileName "out/dir".toList "rawimg-0001.sis".toList)
      = (cexOut1, none) := by decide
  have hc2 : fsCopy cexOut1 "in/rawimg-0002.sis".toList
      (withFileName "out/dir".toList "rawimg-0002.sis".toList)
      = (cexOut2, none) := by decide
  have hc3 : fsCopy cexOut2 "in/rawimg-0003.sis".toList
      (withFileName "out/dir".toList "rawimg-0003.sis".toList)
      = (cexOut3, none) := by decide
  have hodp : withFileName "out/dir".toList odFileName
      = "out/20140000-img-0000.sis".toList := by decide
  have hproc : FKSpecies.procRes (fun _ => 0) "out/dir".toList cexFs cexPaths
      = (fsSet cexOut3 "out/20140000-img-0000.sis".toList
          (List.replicate 10 32 ++ le16 (od.height % 65536)
            ++ le16 (od.width % 65536) ++ List.replicate 186 32
            ++ (od.data.map rescaleElem).flatMap le16), none) := by
    simp only [FKSpecies.procRes, hf1, hn1, hf2, hn2, hf3, hn3, hr1, hr2, hr3,
      htg, hcal, hnew, hwritex, hc1, hc2, hc3, hodp]
  rw [hproc]
  refine ⟨rfl, ?_, ?_, ?_, ?_, by decide, by decide⟩
  · rw [fsSet_lookup_ne _ _ _ _ (by decide)]
    simp only [cexOut3, cexOut2, cexOut1]
    rw [fsSet_lookup_ne _ _ _ _ (by decide),
      fsSet_lookup_ne _ _ _ _ (by decide), fsSet_lookup_same]
  · rw [fsSet_lookup_ne _ _ _ _ (by decide)]
    simp only [cexOut3, cexOut2, cexOut1]
    rw [fsSet_lookup_ne _ _ _ _ (by decide),
      fsSet_lookup_ne _ _ _ _ (by decide),
      fsSet_lookup_ne _ _ _ _ (by decide)]
    decide
  · rw [fsSet_lookup_same]
    rfl
  · rw [fsSet_lookup_ne _ _ _ _ (by decide)]
    simp only [cexOut3, cexOut2, cexOut1]
    rw [fsSet_lookup_ne _ _ _ _ (by decide),
      fsSet_lookup_ne _ _ _ _ (by decide),
      fsSet_lookup_ne _ _ _ _ (by decide)]
    decide
